import Mathlib

/-! NI-DAQ sampling program: trace semantics of `main` (src/main.cpp)

The program is a single procedure that talks to the vendor driver.  It is
embedded as a function of a driver (the return code and output values of every
driver call) that produces the trace of observable events: driver calls, lines
written to stdout and lines written to stderr.  The read loop of the source is
`while (true)`, so the embedding takes a bound on the number of loop iterations
and reports `Exit.running` when the bound is reached with the loop still going.
-/

namespace NIDAQ

/-! ## Data -/

/-- The `TaskHandle` of the driver header: a pointer, kept as its address. -/
abbrev TaskHandle := Nat

/-- The null pointer. -/
def nullptr : TaskHandle := 0

/-- A `float64` value, kept as its IEEE-754 binary64 bit pattern.  The program
never computes with such values; it only passes them on and prints them. -/
structure float64 where
  bits : Nat
deriving DecidableEq, Repr

/-- The rational value of a finite normal `float64`, `none` for zeros,
subnormals, infinities and NaNs.  Only used to read the literals below. -/
def float64.toRat? (x : float64) : Option ℚ :=
  let b : Nat := x.bits % 2 ^ 64
  let s : Nat := b / 2 ^ 63
  let e : Nat := b / 2 ^ 52 % 2 ^ 11
  let m : Nat := b % 2 ^ 52
  if e = 0 ∨ e = 2047 then none
  else
    let mag : ℚ := (1 + (m : ℚ) / 2 ^ 52) * (2 : ℚ) ^ ((e : Int) - 1023)
    some (if s = 1 then -mag else mag)

/-- Symbolic constants of the driver header used by the program (their numeric
values are not part of the repository). -/
inductive DAQmxVal where
  | Cfg_Default
  | Volts
  | Rising
  | ContSamps
  | GroupByScanNumber
deriving DecidableEq, Repr

/-- A call into the driver together with the arguments the program passes by
value.  Output pointers (`&taskHandle`, `buffer.data()`, `&samplesRead`,
`_errBuff`) and the reserved `nullptr` of the read are not recorded. -/
inductive DriverCall where
  | CreateTask (taskName : String)
  | CreateAIVoltageChan (taskHandle : TaskHandle) (physicalChannel : String)
      (nameToAssign : String) (terminalConfig : DAQmxVal) (minVal maxVal : float64)
      (units : DAQmxVal) (customScaleName : Option String)
  | CfgSampClkTiming (taskHandle : TaskHandle) (source : String) (rate : float64)
      (activeEdge sampleMode : DAQmxVal) (sampsPerChan : Int)
  | StartTask (taskHandle : TaskHandle)
  | ReadAnalogF64 (taskHandle : TaskHandle) (numSampsPerChan : Int) (timeout : float64)
      (fillMode : DAQmxVal) (arraySizeInSamps : Nat)
  | GetExtendedErrorInfo (bufferSize : Nat)
  | StopTask (taskHandle : TaskHandle)
  | ClearTask (taskHandle : TaskHandle)
deriving DecidableEq, Repr

/-- One operand of a `<<` chain on a stream. -/
inductive Piece where
  | str (s : String)
  | chr (c : Char)
  | int (n : Int)
  | flt (x : float64)
deriving DecidableEq, Repr

/-- An observable event of the program. -/
inductive Event where
  | call (c : DriverCall)
  | stdout (line : List Piece)
  | stderr (line : List Piece)
deriving DecidableEq, Repr

/-- What one `DAQmxReadAnalogF64` call does: its return code, the value it
leaves in `samplesRead` (initialised to 0 by the program before every call), and
the samples it stores at the front of the array it was given. -/
structure ReadResult where
  code : Int
  samplesRead : Int
  written : List float64

/-- The driver as the program sees it: the `DAQmxFailed` test of the driver
header and, for every driver call, its return code and outputs.  Reads are
indexed by the loop iteration in which they are made. -/
structure Driver where
  DAQmxFailed : Int → Bool
  /-- Return code, and the value of `taskHandle` after the call (`nullptr` when
  the driver leaves the variable as the program initialised it). -/
  DAQmxCreateTask : Int × TaskHandle
  DAQmxCreateAIVoltageChan : Int
  DAQmxCfgSampClkTiming : Int
  DAQmxStartTask : Int
  DAQmxReadAnalogF64 : Nat → ReadResult
  /-- The C string left in `_errBuff` (empty when the driver writes nothing). -/
  DAQmxGetExtendedErrorInfo : String
  DAQmxStopTask : Int
  DAQmxClearTask : Int

/-- The exception classes the program throws. -/
inductive ExnClass where
  | runtime_error
deriving DecidableEq, Repr

/-- A thrown C++ exception object. -/
structure Exn where
  cls : ExnClass
  what : String
deriving DecidableEq, Repr

/-- Whether `catch (const std::exception&)` catches the exception:
`std::runtime_error` derives from `std::exception`. -/
def Exn.isStdException (e : Exn) : Bool :=
  match e.cls with
  | .runtime_error => true

/-- How a block of statements ends within the iteration bound. -/
inductive Outcome where
  | running
  | thrown (e : Exn)
deriving DecidableEq, Repr

/-- How `main` ends within the iteration bound. -/
inductive Exit where
  | running
  | returned (code : Int)
  | uncaught (e : Exn)
deriving DecidableEq, Repr

/-- The result of running `main`: the events so far and how it ended. -/
structure Run where
  trace : List Event
  exit : Exit
deriving DecidableEq, Repr

/-! ## The program -/

/-- Line 27: `physicalChannels`. -/
def physicalChannels : String := "cDAQ1Mod1/ai1"

/-- Line 29: `sampleRateHz = 1000.0`. -/
def sampleRateHz : float64 := ⟨0x408F400000000000⟩

/-- Line 30: `samplesPerRead = 100`. -/
def samplesPerRead : Int := 100

/-- Line 31: `timeoutSec = 10.0`. -/
def timeoutSec : float64 := ⟨0x4024000000000000⟩

/-- The literal `-10.0` of the channel range. -/
def minVolts : float64 := ⟨0xC024000000000000⟩

/-- The literal `10.0` of the channel range. -/
def maxVolts : float64 := ⟨0x4024000000000000⟩

/-- The size of `_errBuff`. -/
def errBuffSize : Nat := 2048

/-- The failure branch of `DAQmxCheck` (lines 13-17): fetch the extended error
string, log it with the code on stderr. -/
def failureEvents (d : Driver) (_err : Int) : List Event :=
  [ .call (.GetExtendedErrorInfo errBuffSize),
    .stderr [ .str "[NI-DAQmx Error] ", .str d.DAQmxGetExtendedErrorInfo,
              .str " (code ", .int _err, .str ")\n"] ]

/-- The exception thrown by `DAQmxCheck` (line 17). -/
def callFailed : Exn := ⟨.runtime_error, "NI-DAQmx call failed"⟩

/-- The `DAQmxCheck` of lines 9-19 applied to the return code of a call: the
events it produces and the exception it throws, if any. -/
def DAQmxCheck (d : Driver) (_err : Int) : List Event × Option Exn :=
  if d.DAQmxFailed _err then (failureEvents d _err, some callFailed) else ([], none)

/-- The statement `DAQmxCheck(call);` followed by the rest of the block. -/
def checked (d : Driver) (c : DriverCall) (_err : Int)
    (rest : List Event × Outcome) : List Event × Outcome :=
  match DAQmxCheck d _err with
  | (ev, some e) => (.call c :: ev, .thrown e)
  | (ev, none) => (.call c :: ev ++ rest.1, rest.2)

/-- The effect of a read on `buffer`: the driver overwrites the front of the
array through `buffer.data()`; the size of the vector does not change. -/
def ReadResult.store (r : ReadResult) (buffer : List float64) : List float64 :=
  r.written.take buffer.length ++ buffer.drop r.written.length

/-- The read call of lines 76-85. -/
def readCall (taskHandle : TaskHandle) (buffer : List float64) : DriverCall :=
  .ReadAnalogF64 taskHandle samplesPerRead timeoutSec .GroupByScanNumber
    (buffer.length % 2 ^ 32)

/-- The report of lines 87-92. -/
def report (samplesRead : Int) (buffer : List float64) : List Event :=
  if samplesRead > 0 then
    [ .stdout [ .str "Read ", .int samplesRead, .str " samples. First sample = ",
                .flt (buffer.getD 0 ⟨0⟩), .str " V\n"] ]
  else []

/-- The loop of lines 73-93, for at most `fuel` iterations; `i` counts the
iterations already made. -/
def readLoop (d : Driver) (taskHandle : TaskHandle) :
    Nat → Nat → List float64 → List Event × Outcome
  | 0, _, _ => ([], .running)
  | fuel + 1, i, buffer =>
    let r := d.DAQmxReadAnalogF64 i
    let buffer1 := r.store buffer
    checked d (readCall taskHandle buffer) r.code
      (let rest := readLoop d taskHandle fuel (i + 1) buffer1
       (report r.samplesRead buffer1 ++ rest.1, rest.2))

/-- The two lines written to stdout before the loop (lines 67-70). -/
def announcement : List Event :=
  [ .stdout [ .str "Start continuous acquisition on [", .str physicalChannels,
              .str "] at ", .flt sampleRateHz, .str " Hz...\n",
              .str "Press Ctrl+C to stop.\n"] ]

/-- The vector `buffer(samplesPerRead)` of line 65, value-initialised. -/
def initialBuffer : List float64 := List.replicate samplesPerRead.toNat ⟨0⟩

/-- The body of the `try` block (lines 35-93) once `DAQmxCreateTask` has stored
`taskHandle`. -/
def tryBlock (d : Driver) (taskHandle : TaskHandle) (fuel : Nat) : List Event × Outcome :=
  checked d (.CreateTask "ai_task") d.DAQmxCreateTask.1 <|
  checked d (.CreateAIVoltageChan taskHandle physicalChannels "" .Cfg_Default
      minVolts maxVolts .Volts none) d.DAQmxCreateAIVoltageChan <|
  checked d (.CfgSampClkTiming taskHandle "" sampleRateHz .Rising .ContSamps
      samplesPerRead) d.DAQmxCfgSampClkTiming <|
  checked d (.StartTask taskHandle) d.DAQmxStartTask <|
  (let rest := readLoop d taskHandle fuel 0 initialBuffer
   (announcement ++ rest.1, rest.2))

/-- The cleanup of lines 100-103. -/
def cleanup (taskHandle : TaskHandle) : List Event :=
  if taskHandle ≠ nullptr then
    [ .call (.StopTask taskHandle), .call (.ClearTask taskHandle) ]
  else []

/-- The handler of lines 95-97. -/
def handler (ex : Exn) : List Event :=
  [ .stderr [ .str "[Exception] ", .str ex.what, .chr '\n'] ]

/-- The procedure `main` (lines 22-106) against driver `d`, with the read loop
cut after `fuel` iterations.  `taskHandle` is `nullptr` until the first
statement of the `try` block, `DAQmxCreateTask("ai_task", &taskHandle)`, has
run; every later use reads the value that call left in it. -/
def main (d : Driver) (fuel : Nat) : Run :=
  let taskHandle : TaskHandle := d.DAQmxCreateTask.2
  match tryBlock d taskHandle fuel with
  | (tr, .running) => ⟨tr, .running⟩
  | (tr, .thrown ex) =>
    if ex.isStdException then
      ⟨tr ++ handler ex ++ cleanup taskHandle, .returned 0⟩
    else
      ⟨tr, .uncaught ex⟩


/-! ## Vocabulary for the statements -/

/-- The driver calls of a trace, in order. -/
def calls (tr : List Event) : List DriverCall :=
  tr.filterMap fun ev => match ev with
    | .call c => some c
    | _ => none

/-- The task handle a driver call is given, for the calls that take one. -/
def DriverCall.handle? : DriverCall → Option TaskHandle
  | .CreateAIVoltageChan h _ _ _ _ _ _ _ => some h
  | .CfgSampClkTiming h _ _ _ _ _ => some h
  | .StartTask h => some h
  | .ReadAnalogF64 h _ _ _ _ => some h
  | .StopTask h => some h
  | .ClearTask h => some h
  | _ => none

/-- Calls of `DAQmxStopTask`. -/
def DriverCall.isStop : DriverCall → Bool
  | .StopTask _ => true
  | _ => false

/-- Calls of `DAQmxClearTask`. -/
def DriverCall.isClear : DriverCall → Bool
  | .ClearTask _ => true
  | _ => false

/-- Calls of `DAQmxReadAnalogF64`. -/
def DriverCall.isRead : DriverCall → Bool
  | .ReadAnalogF64 _ _ _ _ _ => true
  | _ => false

/-- The calls the source wraps in `DAQmxCheck`. -/
def DriverCall.isChecked : DriverCall → Bool
  | .CreateTask _ => true
  | .CreateAIVoltageChan _ _ _ _ _ _ _ _ => true
  | .CfgSampClkTiming _ _ _ _ _ _ => true
  | .StartTask _ => true
  | .ReadAnalogF64 _ _ _ _ _ => true
  | _ => false

/-- The names of the driver functions the program calls. -/
inductive Fn where
  | CreateTask
  | CreateAIVoltageChan
  | CfgSampClkTiming
  | StartTask
  | ReadAnalogF64
  | GetExtendedErrorInfo
  | StopTask
  | ClearTask
deriving DecidableEq, Repr

/-- The driver function a call is a call of. -/
def DriverCall.fn : DriverCall → Fn
  | .CreateTask _ => .CreateTask
  | .CreateAIVoltageChan _ _ _ _ _ _ _ _ => .CreateAIVoltageChan
  | .CfgSampClkTiming _ _ _ _ _ _ => .CfgSampClkTiming
  | .StartTask _ => .StartTask
  | .ReadAnalogF64 _ _ _ _ _ => .ReadAnalogF64
  | .GetExtendedErrorInfo _ => .GetExtendedErrorInfo
  | .StopTask _ => .StopTask
  | .ClearTask _ => .ClearTask

/-- The value of `taskHandle` once `DAQmxCreateTask` has run. -/
def Driver.handle (d : Driver) : TaskHandle := d.DAQmxCreateTask.2

/-- The contents of `buffer` at the start of loop iteration `i`. -/
def bufferAt (d : Driver) : Nat → List float64
  | 0 => initialBuffer
  | i + 1 => (d.DAQmxReadAnalogF64 i).store (bufferAt d i)

/-- The return code of the `k`-th checked call in program order: create task,
create channel, configure clock, start task, then the reads. -/
def checkedCode (d : Driver) : Nat → Int
  | 0 => d.DAQmxCreateTask.1
  | 1 => d.DAQmxCreateAIVoltageChan
  | 2 => d.DAQmxCfgSampClkTiming
  | 3 => d.DAQmxStartTask
  | i + 4 => (d.DAQmxReadAnalogF64 i).code

/-- The `k`-th checked call in program order. -/
def checkedCall (d : Driver) : Nat → DriverCall
  | 0 => .CreateTask "ai_task"
  | 1 => .CreateAIVoltageChan d.handle physicalChannels "" .Cfg_Default
      minVolts maxVolts .Volts none
  | 2 => .CfgSampClkTiming d.handle "" sampleRateHz .Rising .ContSamps samplesPerRead
  | 3 => .StartTask d.handle
  | i + 4 => readCall d.handle (bufferAt d i)

/-- What the program prints right after the `k`-th checked call has succeeded. -/
def afterSuccess (d : Driver) : Nat → List Event
  | 0 => []
  | 1 => []
  | 2 => []
  | 3 => announcement
  | i + 4 => report (d.DAQmxReadAnalogF64 i).samplesRead (bufferAt d (i + 1))

/-- The events of the first `k` checked calls when all of them succeed. -/
def okEvents (d : Driver) : Nat → List Event
  | 0 => []
  | k + 1 => okEvents d k ++ .call (checkedCall d k) :: afterSuccess d k

/-- The events of the `n` checked calls from the `k`-th on when all of them
succeed. -/
def okFrom (d : Driver) : Nat → Nat → List Event
  | _, 0 => []
  | k, n + 1 => .call (checkedCall d k) :: afterSuccess d k ++ okFrom d (k + 1) n

/-- The `k`-th checked call is the first one to fail. -/
def FirstFailure (d : Driver) (k : Nat) : Prop :=
  d.DAQmxFailed (checkedCode d k) = true ∧
    ∀ j, j < k → d.DAQmxFailed (checkedCode d j) = false

/-- The read call the loop makes with the 100-sample buffer. -/
def fixedRead (h : TaskHandle) : DriverCall :=
  .ReadAnalogF64 h 100 timeoutSec .GroupByScanNumber 100

/-- The driver calls of the cleanup. -/
def cleanupCalls (h : TaskHandle) : List DriverCall :=
  if h ≠ nullptr then [.StopTask h, .ClearTask h] else []

/-! ## Concrete drivers -/

/-- A failure test for the concrete drivers below: negative codes fail. -/
def negativeFails : Int → Bool := fun e => decide (e < 0)

/-- A driver whose `DAQmxCreateTask` fails and leaves `taskHandle` null. -/
def createFailsNull : Driver :=
  { DAQmxFailed := negativeFails
    DAQmxCreateTask := (-200088, nullptr)
    DAQmxCreateAIVoltageChan := 0
    DAQmxCfgSampClkTiming := 0
    DAQmxStartTask := 0
    DAQmxReadAnalogF64 := fun _ => ⟨0, 100, []⟩
    DAQmxGetExtendedErrorInfo := "no task"
    DAQmxStopTask := 0
    DAQmxClearTask := 0 }

/-- A driver whose `DAQmxCreateTask` fails but stores a non-null handle. -/
def createFailsWithHandle : Driver :=
  { createFailsNull with DAQmxCreateTask := (-200088, 7) }

/-- A driver whose `DAQmxCreateTask` reports success and stores a null handle. -/
def createOkNullHandle : Driver :=
  { createFailsNull with DAQmxCreateTask := (0, nullptr) }

/-- A driver whose setup succeeds with handle 7, whose first read delivers 100
samples, whose second read delivers none, whose third read fails, and whose
stop and clear calls return failing codes. -/
def thirdReadFails : Driver :=
  { DAQmxFailed := negativeFails
    DAQmxCreateTask := (0, 7)
    DAQmxCreateAIVoltageChan := 0
    DAQmxCfgSampClkTiming := 0
    DAQmxStartTask := 0
    DAQmxReadAnalogF64 := fun i =>
      if i = 0 then ⟨0, 100, [⟨5⟩, ⟨6⟩]⟩ else if i = 1 then ⟨0, 0, []⟩ else ⟨-200284, 0, []⟩
    DAQmxGetExtendedErrorInfo := "timeout"
    DAQmxStopTask := -1
    DAQmxClearTask := -2 }

/-- A driver none of whose calls ever fails. -/
def neverFails : Driver :=
  { thirdReadFails with DAQmxReadAnalogF64 := fun _ => ⟨0, 100, [⟨5⟩]⟩ }

/-! ## Basic lemmas -/

theorem checked_ok (d : Driver) (c : DriverCall) (e : Int) (rest : List Event × Outcome)
    (h : d.DAQmxFailed e = false) :
    checked d c e rest = (.call c :: rest.1, rest.2) := by
  simp [checked, DAQmxCheck, h]

theorem checked_fail (d : Driver) (c : DriverCall) (e : Int) (rest : List Event × Outcome)
    (h : d.DAQmxFailed e = true) :
    checked d c e rest = (.call c :: failureEvents d e, .thrown callFailed) := by
  simp [checked, DAQmxCheck, h]

theorem store_length (r : ReadResult) (buffer : List float64) :
    (r.store buffer).length = buffer.length := by
  simp only [ReadResult.store, List.length_append, List.length_take, List.length_drop]
  omega

theorem bufferAt_length (d : Driver) (i : Nat) : (bufferAt d i).length = 100 := by
  induction i with
  | zero => simp [bufferAt, initialBuffer, samplesPerRead]
  | succ i ih => simp [bufferAt, store_length, ih]

theorem readCall_bufferAt (d : Driver) (h : TaskHandle) (i : Nat) :
    readCall h (bufferAt d i) = fixedRead h := by
  simp [readCall, fixedRead, bufferAt_length, samplesPerRead]

theorem okEvents_add (d : Driver) (k n : Nat) :
    okEvents d (k + n) = okEvents d k ++ okFrom d k n := by
  induction n generalizing k with
  | zero => simp [okFrom]
  | succ n ih =>
    have h := ih (k + 1)
    rw [show k + 1 + n = k + (n + 1) by omega] at h
    rw [h]
    simp [okEvents, okFrom]

/-- Unfolding the loop over `n` successful reads. -/
theorem readLoop_ok (d : Driver) (n m : Nat) :
    ∀ i : Nat, (∀ j, j < n → d.DAQmxFailed (checkedCode d (i + j + 4)) = false) →
      readLoop d d.handle (n + m) i (bufferAt d i)
        = (okFrom d (i + 4) n ++ (readLoop d d.handle m (i + n) (bufferAt d (i + n))).1,
           (readLoop d d.handle m (i + n) (bufferAt d (i + n))).2) := by
  induction n with
  | zero => intro i _; simp [okFrom]
  | succ n ih =>
    intro i hok
    have h0 : d.DAQmxFailed (d.DAQmxReadAnalogF64 i).code = false := by
      simpa [checkedCode] using hok 0 (by omega)
    have hrest := ih (i + 1) (fun j hj => by
      have := hok (j + 1) (by omega)
      rwa [show i + (j + 1) + 4 = i + 1 + j + 4 by omega] at this)
    rw [show n + 1 + m = (n + m) + 1 by omega]
    simp only [readLoop]
    rw [checked_ok d _ _ _ h0]
    simp only [bufferAt] at hrest
    rw [hrest]
    simp [okFrom, checkedCall, afterSuccess, bufferAt,
      show i + 1 + n = i + (n + 1) by omega]

/-- The loop at a failing read. -/
theorem readLoop_fail (d : Driver) (h : TaskHandle) (m i : Nat) (buffer : List float64)
    (hf : d.DAQmxFailed (d.DAQmxReadAnalogF64 i).code = true) :
    readLoop d h (m + 1) i buffer
      = (.call (readCall h buffer) :: failureEvents d (d.DAQmxReadAnalogF64 i).code,
         .thrown callFailed) := by
  simp only [readLoop]
  rw [checked_fail d _ _ _ hf]

/-- The events of the four setup calls and the announcement. -/
theorem okEvents_four (d : Driver) :
    okEvents d 4 = [.call (checkedCall d 0), .call (checkedCall d 1),
      .call (checkedCall d 2), .call (checkedCall d 3)] ++ announcement := by
  simp [okEvents, afterSuccess]

/-- The whole run when no checked call fails within the bound. -/
theorem main_no_failure (d : Driver) (fuel : Nat)
    (hok : ∀ j, j < fuel + 4 → d.DAQmxFailed (checkedCode d j) = false) :
    main d fuel = ⟨okEvents d (fuel + 4), .running⟩ := by
  have h0 : d.DAQmxFailed d.DAQmxCreateTask.1 = false := hok 0 (by omega)
  have h1 : d.DAQmxFailed d.DAQmxCreateAIVoltageChan = false := hok 1 (by omega)
  have h2 : d.DAQmxFailed d.DAQmxCfgSampClkTiming = false := hok 2 (by omega)
  have h3 : d.DAQmxFailed d.DAQmxStartTask = false := hok 3 (by omega)
  have hl := readLoop_ok d fuel 0 0 (fun j hj => by
    have := hok (j + 4) (by omega)
    rwa [show j + 4 = 0 + j + 4 by omega] at this)
  simp only [Nat.add_zero, Nat.zero_add, bufferAt, readLoop, List.append_nil] at hl
  have he := okEvents_add d 4 fuel
  rw [okEvents_four] at he
  rw [show fuel + 4 = 4 + fuel by omega, he]
  simp only [main, tryBlock]
  rw [checked_ok d _ _ _ h0, checked_ok d _ _ _ h1, checked_ok d _ _ _ h2,
    checked_ok d _ _ _ h3]
  simp only [Driver.handle] at hl
  rw [hl]
  simp [checkedCall, Driver.handle]

/-- The whole run when the `k`-th checked call is the first to fail and the
bound lets the program reach it. -/
theorem main_first_failure (d : Driver) (k fuel : Nat) (hk : FirstFailure d k)
    (hfuel : k ≤ fuel + 3) :
    main d fuel = ⟨okEvents d k ++ .call (checkedCall d k) ::
        failureEvents d (checkedCode d k) ++ handler callFailed ++ cleanup d.handle,
      .returned 0⟩ := by
  obtain ⟨hf, hok⟩ := hk
  match k, hf, hok, hfuel with
  | 0, hf, _, _ =>
    have hf0 : d.DAQmxFailed d.DAQmxCreateTask.1 = true := hf
    simp only [main, tryBlock]
    rw [checked_fail d _ _ _ hf0]
    simp [okEvents, checkedCall, checkedCode, callFailed, Exn.isStdException, Driver.handle]
  | 1, hf, hok, _ =>
    have h0 : d.DAQmxFailed d.DAQmxCreateTask.1 = false := hok 0 (by omega)
    have hf1 : d.DAQmxFailed d.DAQmxCreateAIVoltageChan = true := hf
    simp only [main, tryBlock]
    rw [checked_ok d _ _ _ h0, checked_fail d _ _ _ hf1]
    simp [okEvents, afterSuccess, checkedCall, checkedCode, callFailed, Exn.isStdException,
      Driver.handle]
  | 2, hf, hok, _ =>
    have h0 : d.DAQmxFailed d.DAQmxCreateTask.1 = false := hok 0 (by omega)
    have h1 : d.DAQmxFailed d.DAQmxCreateAIVoltageChan = false := hok 1 (by omega)
    have hf2 : d.DAQmxFailed d.DAQmxCfgSampClkTiming = true := hf
    simp only [main, tryBlock]
    rw [checked_ok d _ _ _ h0, checked_ok d _ _ _ h1, checked_fail d _ _ _ hf2]
    simp [okEvents, afterSuccess, checkedCall, checkedCode, callFailed, Exn.isStdException,
      Driver.handle]
  | 3, hf, hok, _ =>
    have h0 : d.DAQmxFailed d.DAQmxCreateTask.1 = false := hok 0 (by omega)
    have h1 : d.DAQmxFailed d.DAQmxCreateAIVoltageChan = false := hok 1 (by omega)
    have h2 : d.DAQmxFailed d.DAQmxCfgSampClkTiming = false := hok 2 (by omega)
    have hf3 : d.DAQmxFailed d.DAQmxStartTask = true := hf
    simp only [main, tryBlock]
    rw [checked_ok d _ _ _ h0, checked_ok d _ _ _ h1, checked_ok d _ _ _ h2,
      checked_fail d _ _ _ hf3]
    simp [okEvents, afterSuccess, checkedCall, checkedCode, callFailed, Exn.isStdException,
      Driver.handle]
  | n + 4, hf, hok, hfuel =>
    have h0 : d.DAQmxFailed d.DAQmxCreateTask.1 = false := hok 0 (by omega)
    have h1 : d.DAQmxFailed d.DAQmxCreateAIVoltageChan = false := hok 1 (by omega)
    have h2 : d.DAQmxFailed d.DAQmxCfgSampClkTiming = false := hok 2 (by omega)
    have h3 : d.DAQmxFailed d.DAQmxStartTask = false := hok 3 (by omega)
    have hfn : d.DAQmxFailed (d.DAQmxReadAnalogF64 n).code = true := hf
    obtain ⟨m, rfl⟩ : ∃ m, fuel = n + (m + 1) := ⟨fuel - n - 1, by omega⟩
    have hl := readLoop_ok d n (m + 1) 0 (fun j hj => by
      have := hok (j + 4) (by omega)
      rwa [show j + 4 = 0 + j + 4 by omega] at this)
    simp only [Nat.zero_add] at hl
    rw [readLoop_fail d _ m n _ hfn] at hl
    have he := okEvents_add d 4 n
    rw [okEvents_four] at he
    rw [show n + 4 = 4 + n by omega, he]
    simp only [main, tryBlock]
    rw [checked_ok d _ _ _ h0, checked_ok d _ _ _ h1, checked_ok d _ _ _ h2,
      checked_ok d _ _ _ h3]
    simp only [Driver.handle, bufferAt] at hl
    rw [hl]
    simp [checkedCall, checkedCode, callFailed, Exn.isStdException, Driver.handle,
      show 4 + n = n + 4 by omega]

/-- Within any bound, either some checked call is the first to fail or none
fails. -/
theorem first_failure_or_none (d : Driver) (fuel : Nat) :
    (∃ k, k ≤ fuel + 3 ∧ FirstFailure d k) ∨
      (∀ j, j < fuel + 4 → d.DAQmxFailed (checkedCode d j) = false) := by
  by_cases h : ∃ k, k < fuel + 4 ∧ d.DAQmxFailed (checkedCode d k) = true
  · left
    refine ⟨Nat.find h, ?_, (Nat.find_spec h).2, ?_⟩
    · have := (Nat.find_spec h).1
      omega
    · intro j hj
      have hmin := Nat.find_min h hj
      have hlt := (Nat.find_spec h).1
      by_contra hc
      exact hmin ⟨by omega, by simpa using hc⟩
  · right
    intro j hj
    by_contra hc
    exact h ⟨j, hj, by simpa using hc⟩

/-- A failing checked call has a first failing checked call at or before it. -/
theorem exists_first_failure (d : Driver) (k : Nat)
    (hf : d.DAQmxFailed (checkedCode d k) = true) : ∃ k0, k0 ≤ k ∧ FirstFailure d k0 := by
  have h : ∃ k, d.DAQmxFailed (checkedCode d k) = true := ⟨k, hf⟩
  refine ⟨Nat.find h, Nat.find_min' h hf, Nat.find_spec h, ?_⟩
  intro j hj
  have hmin := Nat.find_min h hj
  by_contra hc
  exact hmin (by simpa using hc)

theorem calls_append (a b : List Event) : calls (a ++ b) = calls a ++ calls b := by
  simp [calls, List.filterMap_append]

theorem calls_cons_call (c : DriverCall) (tr : List Event) :
    calls (.call c :: tr) = c :: calls tr := by
  simp [calls, List.filterMap_cons]

theorem calls_afterSuccess (d : Driver) (k : Nat) : calls (afterSuccess d k) = [] := by
  match k with
  | 0 => simp [afterSuccess, calls]
  | 1 => simp [afterSuccess, calls]
  | 2 => simp [afterSuccess, calls]
  | 3 => simp [afterSuccess, calls, announcement]
  | i + 4 =>
    simp only [afterSuccess, report]
    split <;> simp [calls]

theorem calls_failureEvents (d : Driver) (e : Int) :
    calls (failureEvents d e) = [.GetExtendedErrorInfo 2048] := by
  simp [failureEvents, calls, errBuffSize]

theorem calls_handler (ex : Exn) : calls (handler ex) = [] := by
  simp [handler, calls]

theorem calls_cleanup (h : TaskHandle) : calls (cleanup h) = cleanupCalls h := by
  simp only [cleanup, cleanupCalls]
  split <;> simp [calls]

theorem calls_okEvents (d : Driver) (k : Nat) :
    calls (okEvents d k) = (List.range k).map (checkedCall d) := by
  induction k with
  | zero => simp [okEvents, calls]
  | succ k ih =>
    simp [okEvents, calls_append, calls_cons_call, calls_afterSuccess, ih, List.range_succ]

theorem checkedCall_read (d : Driver) (i : Nat) :
    checkedCall d (i + 4) = fixedRead d.handle := by
  simp [checkedCall, readCall_bufferAt]

/-- The first `n + 4` checked calls: the four setup calls, then `n` equal reads. -/
theorem map_checkedCall (d : Driver) (n : Nat) :
    (List.range (n + 4)).map (checkedCall d)
      = [checkedCall d 0, checkedCall d 1, checkedCall d 2, checkedCall d 3]
          ++ List.replicate n (fixedRead d.handle) := by
  induction n with
  | zero => simp [List.range_succ]
  | succ n ih =>
    rw [show n + 1 + 4 = (n + 4) + 1 by omega, List.range_succ, List.map_append, ih]
    simp [checkedCall_read, List.replicate_succ', List.append_assoc]

/-- The driver calls of a run in which the `k`-th checked call is the first to
fail. -/
theorem calls_first_failure (d : Driver) (k fuel : Nat) (hk : FirstFailure d k)
    (hfuel : k ≤ fuel + 3) :
    calls (main d fuel).trace = (List.range (k + 1)).map (checkedCall d)
      ++ .GetExtendedErrorInfo 2048 :: cleanupCalls d.handle := by
  rw [main_first_failure d k fuel hk hfuel]
  simp [calls_append, calls_cons_call, calls_okEvents, calls_failureEvents, calls_handler,
    calls_cleanup, List.range_succ]

/-- The driver calls of a run in which no checked call fails within the bound. -/
theorem calls_no_failure (d : Driver) (fuel : Nat)
    (hok : ∀ j, j < fuel + 4 → d.DAQmxFailed (checkedCode d j) = false) :
    calls (main d fuel).trace = (List.range (fuel + 4)).map (checkedCall d) := by
  rw [main_no_failure d fuel hok, calls_okEvents]

theorem checkedCall_flags (d : Driver) (k : Nat) :
    (checkedCall d k).isStop = false ∧ (checkedCall d k).isClear = false ∧
      (checkedCall d k).isChecked = true := by
  match k with
  | 0 => simp [checkedCall, DriverCall.isStop, DriverCall.isClear, DriverCall.isChecked]
  | 1 => simp [checkedCall, DriverCall.isStop, DriverCall.isClear, DriverCall.isChecked]
  | 2 => simp [checkedCall, DriverCall.isStop, DriverCall.isClear, DriverCall.isChecked]
  | 3 => simp [checkedCall, DriverCall.isStop, DriverCall.isClear, DriverCall.isChecked]
  | i + 4 =>
    simp [checkedCall, readCall, DriverCall.isStop, DriverCall.isClear, DriverCall.isChecked]

theorem countP_checked (d : Driver) (m : Nat) :
    ((List.range m).map (checkedCall d)).countP DriverCall.isStop = 0 ∧
      ((List.range m).map (checkedCall d)).countP DriverCall.isClear = 0 ∧
      ((List.range m).map (checkedCall d)).countP DriverCall.isChecked = m := by
  induction m with
  | zero => simp
  | succ m ih =>
    obtain ⟨h1, h2, h3⟩ := ih
    obtain ⟨f1, f2, f3⟩ := checkedCall_flags d m
    simp [List.range_succ, List.countP_append, h1, h2, h3, f1, f2, f3]

/-- The loop depends on the driver only through the failure test, the reads and
the error string. -/
theorem readLoop_congr (d e : Driver) (h : TaskHandle)
    (h1 : e.DAQmxFailed = d.DAQmxFailed)
    (h2 : e.DAQmxReadAnalogF64 = d.DAQmxReadAnalogF64)
    (h3 : e.DAQmxGetExtendedErrorInfo = d.DAQmxGetExtendedErrorInfo) (fuel : Nat) :
    ∀ (i : Nat) (buffer : List float64),
      readLoop e h fuel i buffer = readLoop d h fuel i buffer := by
  induction fuel with
  | zero => intro i buffer; rfl
  | succ fuel ih =>
    intro i buffer
    simp only [readLoop, checked, DAQmxCheck, failureEvents, h1, h2, h3, ih]

/-- The return codes of the two cleanup calls do not influence the run. -/
theorem main_ignores_cleanup_codes (d : Driver) (a b : Int) (fuel : Nat) :
    main { d with DAQmxStopTask := a, DAQmxClearTask := b } fuel = main d fuel := by
  simp only [main, tryBlock, checked, DAQmxCheck, failureEvents]
  rw [readLoop_congr d { d with DAQmxStopTask := a, DAQmxClearTask := b } d.DAQmxCreateTask.2
    rfl rfl rfl fuel 0 initialBuffer]

/-! ## C1: cleanup after a failure -/

/-- C1, as stated, fails: when `DAQmxCreateTask` fails and leaves the handle
null, `main` returns without any `DAQmxStopTask` or `DAQmxClearTask`. -/
theorem C1_counterexample :
    createFailsNull.DAQmxFailed createFailsNull.DAQmxCreateTask.1 = true ∧
    createFailsNull.DAQmxCreateTask.2 = nullptr ∧
    main createFailsNull 3 =
      ⟨[ .call (.CreateTask "ai_task"), .call (.GetExtendedErrorInfo 2048),
         .stderr [.str "[NI-DAQmx Error] ", .str "no task", .str " (code ",
           .int (-200088), .str ")\n"],
         .stderr [.str "[Exception] ", .str "NI-DAQmx call failed", .chr '\n'] ],
       .returned 0⟩ ∧
    (calls (main createFailsNull 3).trace).countP DriverCall.isStop = 0 ∧
    (calls (main createFailsNull 3).trace).countP DriverCall.isClear = 0 := by
  decide

/-- C1, amended: when some checked driver call fails and `DAQmxCreateTask` has
left a non-null handle, `main` returns (for every bound that reaches the
failure) and its trace has exactly one `DAQmxStopTask` and exactly one
`DAQmxClearTask`, both on the task handle. -/
theorem C1_cleanup_once_when_handle_set (d : Driver) (k : Nat)
    (hfail : d.DAQmxFailed (checkedCode d k) = true) (hh : d.handle ≠ nullptr) :
    ∃ N, ∀ fuel, N ≤ fuel →
      (main d fuel).exit = .returned 0 ∧
      (calls (main d fuel).trace).countP DriverCall.isStop = 1 ∧
      (calls (main d fuel).trace).countP DriverCall.isClear = 1 ∧
      (calls (main d fuel).trace).count (.StopTask d.handle) = 1 ∧
      (calls (main d fuel).trace).count (.ClearTask d.handle) = 1 := by
  obtain ⟨k0, hk0, hff⟩ := exists_first_failure d k hfail
  refine ⟨k, fun fuel hfuel => ?_⟩
  have hc := calls_first_failure d k0 fuel hff (by omega)
  have hm := main_first_failure d k0 fuel hff (by omega)
  obtain ⟨c1, c2, _⟩ := countP_checked d (k0 + 1)
  have e1 : ((List.range (k0 + 1)).map (checkedCall d)).count (.StopTask d.handle) = 0 := by
    rw [List.count_eq_zero]
    intro hmem
    have := (List.countP_eq_zero.mp c1) _ hmem
    simp [DriverCall.isStop] at this
  have e2 : ((List.range (k0 + 1)).map (checkedCall d)).count (.ClearTask d.handle) = 0 := by
    rw [List.count_eq_zero]
    intro hmem
    have := (List.countP_eq_zero.mp c2) _ hmem
    simp [DriverCall.isClear] at this
  refine ⟨by rw [hm], ?_, ?_, ?_, ?_⟩
  · rw [hc, List.countP_append, c1]
    simp [cleanupCalls, hh, DriverCall.isStop]
  · rw [hc, List.countP_append, c2]
    simp [cleanupCalls, hh, DriverCall.isClear]
  · rw [hc, List.count_append, e1]
    simp [cleanupCalls, hh]
  · rw [hc, List.count_append, e2]
    simp [cleanupCalls, hh]

/-- C1, amended, at a driver whose third read fails. -/
theorem C1_cleanup_once_witness :
    ∃ N, ∀ fuel, N ≤ fuel →
      (main thirdReadFails fuel).exit = .returned 0 ∧
      (calls (main thirdReadFails fuel).trace).countP DriverCall.isStop = 1 ∧
      (calls (main thirdReadFails fuel).trace).countP DriverCall.isClear = 1 ∧
      (calls (main thirdReadFails fuel).trace).count (.StopTask thirdReadFails.handle) = 1 ∧
      (calls (main thirdReadFails fuel).trace).count (.ClearTask thirdReadFails.handle) = 1 :=
  C1_cleanup_once_when_handle_set thirdReadFails 6 (by decide) (by decide)

/-! ## C2: the null-handle guard -/

/-- C2: when `DAQmxCreateTask` fails and leaves `taskHandle` null, the run is
the failed create, the error-info fetch and the two stderr lines; there is no
`DAQmxStopTask` and no `DAQmxClearTask`, and `main` returns 0, whatever the
bound. -/
theorem C2_null_handle_skips_cleanup (d : Driver) (fuel : Nat)
    (hfail : d.DAQmxFailed d.DAQmxCreateTask.1 = true)
    (hnull : d.DAQmxCreateTask.2 = nullptr) :
    main d fuel =
      ⟨[ .call (.CreateTask "ai_task"), .call (.GetExtendedErrorInfo 2048),
         .stderr [.str "[NI-DAQmx Error] ", .str d.DAQmxGetExtendedErrorInfo,
           .str " (code ", .int d.DAQmxCreateTask.1, .str ")\n"],
         .stderr [.str "[Exception] ", .str "NI-DAQmx call failed", .chr '\n'] ],
       .returned 0⟩ ∧
    calls (main d fuel).trace = [.CreateTask "ai_task", .GetExtendedErrorInfo 2048] ∧
    (calls (main d fuel).trace).countP DriverCall.isStop = 0 ∧
    (calls (main d fuel).trace).countP DriverCall.isClear = 0 := by
  have hk : FirstFailure d 0 := ⟨hfail, fun j hj => absurd hj (Nat.not_lt_zero j)⟩
  have hm := main_first_failure d 0 fuel hk (by omega)
  have hc := calls_first_failure d 0 fuel hk (by omega)
  have hcl : cleanupCalls d.handle = [] := by simp [cleanupCalls, Driver.handle, hnull]
  refine ⟨?_, ?_, ?_, ?_⟩
  · rw [hm]
    simp [okEvents, checkedCall, checkedCode, failureEvents, handler, callFailed, cleanup,
      Driver.handle, hnull, errBuffSize]
  · rw [hc, hcl]; simp [checkedCall, List.range_succ]
  · rw [hc, hcl]; simp [checkedCall, DriverCall.isStop, List.range_succ]
  · rw [hc, hcl]; simp [checkedCall, DriverCall.isClear, List.range_succ]

/-- C2 at a driver whose create fails with a null handle. -/
theorem C2_null_handle_witness :
    main createFailsNull 5 =
      ⟨[ .call (.CreateTask "ai_task"), .call (.GetExtendedErrorInfo 2048),
         .stderr [.str "[NI-DAQmx Error] ", .str createFailsNull.DAQmxGetExtendedErrorInfo,
           .str " (code ", .int createFailsNull.DAQmxCreateTask.1, .str ")\n"],
         .stderr [.str "[Exception] ", .str "NI-DAQmx call failed", .chr '\n'] ],
       .returned 0⟩ ∧
    calls (main createFailsNull 5).trace
      = [.CreateTask "ai_task", .GetExtendedErrorInfo 2048] ∧
    (calls (main createFailsNull 5).trace).countP DriverCall.isStop = 0 ∧
    (calls (main createFailsNull 5).trace).countP DriverCall.isClear = 0 :=
  C2_null_handle_skips_cleanup createFailsNull 5 (by decide) (by decide)

/-! ## C3: which calls are checked -/

/-- C3, as stated, fails at the stop and clear call sites: with a driver whose
third read fails and whose stop and clear return failing codes, the run ends
with the stop call directly followed by the clear call, the only error-info
fetch is the one of the read, no stderr line carries the code of the stop or
of the clear, and `main` returns 0. -/
theorem C3_counterexample :
    thirdReadFails.DAQmxFailed thirdReadFails.DAQmxStopTask = true ∧
    thirdReadFails.DAQmxFailed thirdReadFails.DAQmxClearTask = true ∧
    (main thirdReadFails 3).trace.drop 8 =
      [ .call (.ReadAnalogF64 7 100 timeoutSec .GroupByScanNumber 100),
        .call (.GetExtendedErrorInfo 2048),
        .stderr [.str "[NI-DAQmx Error] ", .str "timeout", .str " (code ",
          .int (-200284), .str ")\n"],
        .stderr [.str "[Exception] ", .str "NI-DAQmx call failed", .chr '\n'],
        .call (.StopTask 7), .call (.ClearTask 7) ] ∧
    (calls (main thirdReadFails 3).trace).count (.GetExtendedErrorInfo 2048) = 1 ∧
    Event.stderr [.str "[NI-DAQmx Error] ", .str "timeout", .str " (code ",
      .int thirdReadFails.DAQmxStopTask, .str ")\n"] ∉ (main thirdReadFails 3).trace ∧
    Event.stderr [.str "[NI-DAQmx Error] ", .str "timeout", .str " (code ",
      .int thirdReadFails.DAQmxClearTask, .str ")\n"] ∉ (main thirdReadFails 3).trace ∧
    (main thirdReadFails 3).exit = .returned 0 := by
  decide

/-- C3, amended: every call of the `try` block (create task, create channel,
configure clock, start task, each read) is checked.  When such a call is
reached and returns a failing code, `DAQmxCheck` fetches the extended error
string, writes it with the code to stderr and throws the `runtime_error`
"NI-DAQmx call failed"; in the run the failing call is directly followed by the
fetch, the error line and the line of the handler.  The return codes of
`DAQmxStopTask` and `DAQmxClearTask` are ignored. -/
theorem C3_checked_calls_report_failure (d : Driver) (k fuel : Nat)
    (hk : FirstFailure d k) (hfuel : k ≤ fuel + 3) :
    DAQmxCheck d (checkedCode d k) =
      ([ .call (.GetExtendedErrorInfo 2048),
         .stderr [.str "[NI-DAQmx Error] ", .str d.DAQmxGetExtendedErrorInfo,
           .str " (code ", .int (checkedCode d k), .str ")\n"] ],
       some ⟨.runtime_error, "NI-DAQmx call failed"⟩) ∧
    (main d fuel).trace = okEvents d k ++
      [ .call (checkedCall d k), .call (.GetExtendedErrorInfo 2048),
        .stderr [.str "[NI-DAQmx Error] ", .str d.DAQmxGetExtendedErrorInfo,
          .str " (code ", .int (checkedCode d k), .str ")\n"],
        .stderr [.str "[Exception] ", .str "NI-DAQmx call failed", .chr '\n'] ]
      ++ cleanup d.handle ∧
    (checkedCall d k).isChecked = true ∧
    ∀ a b : Int, main { d with DAQmxStopTask := a, DAQmxClearTask := b } fuel = main d fuel := by
  refine ⟨?_, ?_, (checkedCall_flags d k).2.2, fun a b => main_ignores_cleanup_codes d a b fuel⟩
  · simp [DAQmxCheck, hk.1, failureEvents, callFailed, errBuffSize]
  · rw [main_first_failure d k fuel hk hfuel]
    simp [failureEvents, handler, callFailed, errBuffSize]

/-- C3, amended, at a driver whose third read (the seventh checked call) is the
first call to fail. -/
theorem C3_checked_calls_witness :
    DAQmxCheck thirdReadFails (checkedCode thirdReadFails 6) =
      ([ .call (.GetExtendedErrorInfo 2048),
         .stderr [.str "[NI-DAQmx Error] ", .str thirdReadFails.DAQmxGetExtendedErrorInfo,
           .str " (code ", .int (checkedCode thirdReadFails 6), .str ")\n"] ],
       some ⟨.runtime_error, "NI-DAQmx call failed"⟩) ∧
    (main thirdReadFails 4).trace = okEvents thirdReadFails 6 ++
      [ .call (checkedCall thirdReadFails 6), .call (.GetExtendedErrorInfo 2048),
        .stderr [.str "[NI-DAQmx Error] ", .str thirdReadFails.DAQmxGetExtendedErrorInfo,
          .str " (code ", .int (checkedCode thirdReadFails 6), .str ")\n"],
        .stderr [.str "[Exception] ", .str "NI-DAQmx call failed", .chr '\n'] ]
      ++ cleanup thirdReadFails.handle ∧
    (checkedCall thirdReadFails 6).isChecked = true ∧
    ∀ a b : Int, main { thirdReadFails with DAQmxStopTask := a, DAQmxClearTask := b } 4
      = main thirdReadFails 4 :=
  C3_checked_calls_report_failure thirdReadFails 6 4
    ⟨by decide, by decide⟩ (by decide)

/-! ## Prefixes of a run -/

/-- When the first `m` checked calls succeed and the bound allows it, the run
starts with their events and goes on with the next checked call. -/
theorem trace_next (d : Driver) (m fuel : Nat)
    (hok : ∀ j, j < m → d.DAQmxFailed (checkedCode d j) = false) (hm : m ≤ fuel + 3) :
    ∃ rest, (main d fuel).trace = okEvents d m ++ .call (checkedCall d m) :: rest := by
  rcases first_failure_or_none d fuel with ⟨k, hk, hff⟩ | hnone
  · have hmk : m ≤ k := by
      by_contra hlt
      have := hok k (by omega)
      rw [hff.1] at this
      exact Bool.noConfusion this
    obtain ⟨t, rfl⟩ : ∃ t, k = m + t := ⟨k - m, by omega⟩
    rw [main_first_failure d (m + t) fuel hff hk, okEvents_add]
    cases t with
    | zero => exact ⟨_, by simp [okFrom]; rfl⟩
    | succ t => exact ⟨_, by simp [okFrom]; rfl⟩
  · obtain ⟨t, ht⟩ : ∃ t, fuel + 4 = m + (t + 1) := ⟨fuel + 3 - m, by omega⟩
    rw [main_no_failure d fuel hnone, ht, okEvents_add]
    exact ⟨_, by simp [okFrom]; rfl⟩

/-- When the first `m` checked calls succeed and the bound allows it, the
driver calls of the run start with the first `m + 1` checked calls. -/
theorem calls_next (d : Driver) (m fuel : Nat)
    (hok : ∀ j, j < m → d.DAQmxFailed (checkedCode d j) = false) (hm : m ≤ fuel + 3) :
    ∃ rest, calls (main d fuel).trace = (List.range (m + 1)).map (checkedCall d) ++ rest := by
  obtain ⟨rest, hr⟩ := trace_next d m fuel hok hm
  refine ⟨calls rest, ?_⟩
  rw [hr, calls_append, calls_cons_call, calls_okEvents]
  simp [List.range_succ]

/-- The driver calls of any run: checked calls in program order, all but the
last of which succeeded, then nothing or the error-info fetch and the cleanup. -/
theorem calls_shape (d : Driver) (fuel : Nat) :
    ∃ m tail, calls (main d fuel).trace = (List.range (m + 1)).map (checkedCall d) ++ tail ∧
      (tail = [] ∨ tail = .GetExtendedErrorInfo 2048 :: cleanupCalls d.handle) ∧
      ((∀ j, j < 4 → d.DAQmxFailed (checkedCode d j) = false) → 3 ≤ m) ∧
      (∀ j, j < m → d.DAQmxFailed (checkedCode d j) = false) := by
  rcases first_failure_or_none d fuel with ⟨k, hk, hff⟩ | hnone
  · refine ⟨k, _, calls_first_failure d k fuel hff hk, Or.inr rfl, fun hs => ?_, hff.2⟩
    by_contra hlt
    have := hs k (by omega)
    rw [hff.1] at this
    exact Bool.noConfusion this
  · exact ⟨fuel + 3, [], by simp [calls_no_failure d fuel hnone], Or.inl rfl,
      fun _ => by omega, fun j hj => hnone j (by omega)⟩

/-- The stop and clear calls occur only as the last two driver calls. -/
theorem stop_clear_last (d : Driver) (fuel : Nat) :
    (∀ c ∈ calls (main d fuel).trace, c.isStop = false ∧ c.isClear = false) ∨
    (d.handle ≠ nullptr ∧ ∃ pre, calls (main d fuel).trace
        = pre ++ [.StopTask d.handle, .ClearTask d.handle] ∧
      ∀ x ∈ pre, x.isStop = false ∧ x.isClear = false) := by
  obtain ⟨m, tail, hc, ht, _, _⟩ := calls_shape d fuel
  have hchk : ∀ x ∈ (List.range (m + 1)).map (checkedCall d),
      x.isStop = false ∧ x.isClear = false := by
    intro x hx
    obtain ⟨j, _, rfl⟩ := List.mem_map.mp hx
    exact ⟨(checkedCall_flags d j).1, (checkedCall_flags d j).2.1⟩
  rcases ht with rfl | rfl
  · left
    intro c hcmem
    rw [hc, List.append_nil] at hcmem
    exact hchk c hcmem
  · by_cases hh : d.handle = nullptr
    · left
      intro c hcmem
      rw [hc] at hcmem
      rcases List.mem_append.mp hcmem with h1 | h1
      · exact hchk c h1
      · simp [cleanupCalls, hh] at h1
        subst h1
        simp [DriverCall.isStop, DriverCall.isClear]
    · right
      refine ⟨hh, (List.range (m + 1)).map (checkedCall d) ++ [.GetExtendedErrorInfo 2048],
        ?_, ?_⟩
      · rw [hc]; simp [cleanupCalls, hh]
      · intro x hx
        rcases List.mem_append.mp hx with h1 | h1
        · exact hchk x h1
        · simp at h1
          subst h1
          simp [DriverCall.isStop, DriverCall.isClear]

/-- When the four setup calls succeed, the driver calls of a run are the four
setup calls, some number of equal reads, and then nothing or the error-info
fetch and the cleanup. -/
theorem calls_after_setup (d : Driver) (fuel : Nat)
    (hs : ∀ j, j < 4 → d.DAQmxFailed (checkedCode d j) = false) :
    ∃ r tail, calls (main d fuel).trace
        = [checkedCall d 0, checkedCall d 1, checkedCall d 2, checkedCall d 3]
          ++ List.replicate r (fixedRead d.handle) ++ tail ∧
      (tail = [] ∨ tail = .GetExtendedErrorInfo 2048 :: cleanupCalls d.handle) := by
  obtain ⟨m, tail, hc, ht, hm, _⟩ := calls_shape d fuel
  have h3 := hm hs
  obtain ⟨r, rfl⟩ : ∃ r, m = r + 3 := ⟨m - 3, by omega⟩
  exact ⟨r, tail, by rw [hc, show r + 3 + 1 = r + 4 by omega, map_checkedCall], ht⟩

/-! ## C4: the order of the driver calls -/

/-- C4: when the four setup calls and the first `n` reads succeed (and the bound
lets the loop make `n` iterations), the first `4 + n` driver calls are create
task, create channel, configure clock, start task and `n` reads, and each setup
function is called exactly once in the whole run; and in every run in which a
stop or a clear call occurs, the run's driver calls end with the stop call
followed by the clear call, with no other stop or clear before them. -/
theorem C4_call_order (d : Driver) (fuel : Nat) :
    (∀ n, n ≤ fuel → (∀ j, j < n + 4 → d.DAQmxFailed (checkedCode d j) = false) →
      (calls (main d fuel).trace).take (4 + n) =
        [ .CreateTask "ai_task",
          .CreateAIVoltageChan d.handle "cDAQ1Mod1/ai1" "" .Cfg_Default minVolts maxVolts
            .Volts none,
          .CfgSampClkTiming d.handle "" sampleRateHz .Rising .ContSamps 100,
          .StartTask d.handle ]
        ++ List.replicate n (.ReadAnalogF64 d.handle 100 timeoutSec .GroupByScanNumber 100) ∧
      ((calls (main d fuel).trace).map DriverCall.fn).count .CreateTask = 1 ∧
      ((calls (main d fuel).trace).map DriverCall.fn).count .CreateAIVoltageChan = 1 ∧
      ((calls (main d fuel).trace).map DriverCall.fn).count .CfgSampClkTiming = 1 ∧
      ((calls (main d fuel).trace).map DriverCall.fn).count .StartTask = 1) ∧
    ((∃ c ∈ calls (main d fuel).trace, c.isStop = true ∨ c.isClear = true) →
      ∃ pre, calls (main d fuel).trace = pre ++ [.StopTask d.handle, .ClearTask d.handle] ∧
        ∀ x ∈ pre, x.isStop = false ∧ x.isClear = false) := by
  constructor
  · intro n hn hok
    obtain ⟨rest, hr⟩ := calls_next d (n + 3) fuel (fun j hj => hok j (by omega)) (by omega)
    rw [show n + 3 + 1 = n + 4 by omega, map_checkedCall] at hr
    obtain ⟨r, tail, hc, ht⟩ := calls_after_setup d fuel (fun j hj => hok j (by omega))
    refine ⟨?_, ?_⟩
    · rw [hr, List.take_append_of_le_length (by simp; omega), List.take_of_length_le (by simp; omega)]
      simp [checkedCall, fixedRead, physicalChannels, samplesPerRead]
    · rw [hc]
      rcases ht with rfl | rfl
      · simp [checkedCall, fixedRead, DriverCall.fn, List.count_replicate]
      · by_cases hh : d.handle = nullptr
        · simp [checkedCall, fixedRead, DriverCall.fn, List.count_replicate, cleanupCalls, hh]
        · simp [checkedCall, fixedRead, DriverCall.fn, List.count_replicate, cleanupCalls, hh]
  · rintro ⟨c, hc, hsc⟩
    rcases stop_clear_last d fuel with hnone | ⟨_, pre, hpre, hno⟩
    · have := hnone c hc
      rcases hsc with h | h
      · rw [this.1] at h; exact Bool.noConfusion h
      · rw [this.2] at h; exact Bool.noConfusion h
    · exact ⟨pre, hpre, hno⟩

/-- C4 at a driver whose third read fails: two reads succeed, and the stop and
clear calls do occur. -/
theorem C4_call_order_witness :
    ((calls (main thirdReadFails 3).trace).take (4 + 2) =
        [ .CreateTask "ai_task",
          .CreateAIVoltageChan thirdReadFails.handle "cDAQ1Mod1/ai1" "" .Cfg_Default
            minVolts maxVolts .Volts none,
          .CfgSampClkTiming thirdReadFails.handle "" sampleRateHz .Rising .ContSamps 100,
          .StartTask thirdReadFails.handle ]
        ++ List.replicate 2
          (.ReadAnalogF64 thirdReadFails.handle 100 timeoutSec .GroupByScanNumber 100) ∧
      ((calls (main thirdReadFails 3).trace).map DriverCall.fn).count .CreateTask = 1 ∧
      ((calls (main thirdReadFails 3).trace).map DriverCall.fn).count .CreateAIVoltageChan = 1 ∧
      ((calls (main thirdReadFails 3).trace).map DriverCall.fn).count .CfgSampClkTiming = 1 ∧
      ((calls (main thirdReadFails 3).trace).map DriverCall.fn).count .StartTask = 1) ∧
    ∃ pre, calls (main thirdReadFails 3).trace
        = pre ++ [.StopTask thirdReadFails.handle, .ClearTask thirdReadFails.handle] ∧
      ∀ x ∈ pre, x.isStop = false ∧ x.isClear = false :=
  ⟨(C4_call_order thirdReadFails 3).1 2 (by decide) (by decide),
   (C4_call_order thirdReadFails 3).2 ⟨.StopTask 7, by decide, Or.inl rfl⟩⟩

/-! ## C5: errors are fatal -/

/-- C5: when the `k`-th checked call is the first to fail, the driver calls of
the run are the checked calls up to and including the failing one, each issued
once in program order, then the single error-info fetch, then the cleanup
calls; no checked call follows the failing one, and `main` returns. -/
theorem C5_failure_is_fatal (d : Driver) (k fuel : Nat)
    (hk : FirstFailure d k) (hfuel : k ≤ fuel + 3) :
    calls (main d fuel).trace = (List.range (k + 1)).map (checkedCall d)
      ++ .GetExtendedErrorInfo 2048 :: cleanupCalls d.handle ∧
    (calls (main d fuel).trace).drop (k + 1)
      = .GetExtendedErrorInfo 2048 :: cleanupCalls d.handle ∧
    (∀ c ∈ (calls (main d fuel).trace).drop (k + 1), c.isChecked = false) ∧
    (calls (main d fuel).trace).countP DriverCall.isChecked = k + 1 ∧
    ((calls (main d fuel).trace).map DriverCall.fn).count .GetExtendedErrorInfo = 1 ∧
    (main d fuel).exit = .returned 0 := by
  have hc := calls_first_failure d k fuel hk hfuel
  have hd : (calls (main d fuel).trace).drop (k + 1)
      = .GetExtendedErrorInfo 2048 :: cleanupCalls d.handle := by
    rw [hc, List.drop_append_of_le_length (by simp), List.drop_of_length_le (by simp)]
    simp
  have hfn : ∀ m, (((List.range m).map (checkedCall d)).map DriverCall.fn).count
      Fn.GetExtendedErrorInfo = 0 := by
    intro m
    rw [List.count_eq_zero]
    intro hmem
    obtain ⟨c, hcm, hce⟩ := List.mem_map.mp hmem
    obtain ⟨j, _, rfl⟩ := List.mem_map.mp hcm
    have := (checkedCall_flags d j).2.2
    cases hj : checkedCall d j <;> simp [hj, DriverCall.fn, DriverCall.isChecked] at hce this
  refine ⟨hc, hd, ?_, ?_, ?_, by rw [main_first_failure d k fuel hk hfuel]⟩
  · rw [hd]
    intro c hcm
    by_cases hh : d.handle = nullptr
    · simp [cleanupCalls, hh] at hcm
      subst hcm
      rfl
    · simp [cleanupCalls, hh] at hcm
      rcases hcm with rfl | rfl | rfl <;> rfl
  · rw [hc, List.countP_append, (countP_checked d (k + 1)).2.2]
    by_cases hh : d.handle = nullptr
    · simp [cleanupCalls, hh, DriverCall.isChecked]
    · simp [cleanupCalls, hh, DriverCall.isChecked]
  · rw [hc, List.map_append, List.count_append, hfn]
    by_cases hh : d.handle = nullptr
    · simp [cleanupCalls, hh, DriverCall.fn]
    · simp [cleanupCalls, hh, DriverCall.fn]

/-- C5 at a driver whose third read (the seventh checked call) fails. -/
theorem C5_failure_is_fatal_witness :
    calls (main thirdReadFails 3).trace = (List.range (6 + 1)).map (checkedCall thirdReadFails)
      ++ .GetExtendedErrorInfo 2048 :: cleanupCalls thirdReadFails.handle ∧
    (calls (main thirdReadFails 3).trace).drop (6 + 1)
      = .GetExtendedErrorInfo 2048 :: cleanupCalls thirdReadFails.handle ∧
    (∀ c ∈ (calls (main thirdReadFails 3).trace).drop (6 + 1), c.isChecked = false) ∧
    (calls (main thirdReadFails 3).trace).countP DriverCall.isChecked = 6 + 1 ∧
    ((calls (main thirdReadFails 3).trace).map DriverCall.fn).count .GetExtendedErrorInfo = 1 ∧
    (main thirdReadFails 3).exit = .returned 0 :=
  C5_failure_is_fatal thirdReadFails 6 3 ⟨by decide, by decide⟩ (by decide)

/-! ## C6: validity of the handle -/

/-- In a list that ends with `z`, whatever precedes an element also precedes
`z`. -/
theorem mem_of_split_snoc {α : Type} (pre post P : List α) (c z : α)
    (h : pre ++ c :: post = P ++ [z]) : ∀ x ∈ pre, x ∈ P := by
  intro x hx
  have hlen : pre.length ≤ P.length := by
    have := congrArg List.length h
    simp at this
    omega
  have h1 : (pre ++ c :: post).take pre.length = pre := by simp
  rw [h, List.take_append_of_le_length hlen] at h1
  rw [← h1] at hx
  exact List.mem_of_mem_take hx

/-- C6, as stated, fails for drivers that do not tie the handle to the return
code of `DAQmxCreateTask`: after a failed create that stored handle 7 the
program calls stop and clear on it, and after a create that reports success
with a null handle the program passes the null handle to every later call. -/
theorem C6_counterexample :
    (createFailsWithHandle.DAQmxFailed createFailsWithHandle.DAQmxCreateTask.1 = true ∧
      calls (main createFailsWithHandle 3).trace
        = [.CreateTask "ai_task", .GetExtendedErrorInfo 2048, .StopTask 7, .ClearTask 7]) ∧
    (createOkNullHandle.DAQmxFailed createOkNullHandle.DAQmxCreateTask.1 = false ∧
      calls (main createOkNullHandle 1).trace
        = [ .CreateTask "ai_task",
            .CreateAIVoltageChan nullptr "cDAQ1Mod1/ai1" "" .Cfg_Default minVolts maxVolts
              .Volts none,
            .CfgSampClkTiming nullptr "" sampleRateHz .Rising .ContSamps 100,
            .StartTask nullptr,
            .ReadAnalogF64 nullptr 100 timeoutSec .GroupByScanNumber 100 ]) := by
  decide

/-- C6, amended: for every driver whose `DAQmxCreateTask` leaves the handle null
exactly when it fails, every driver call that takes the task handle is given
the handle stored by `DAQmxCreateTask`, which is not null; the create call
precedes it and succeeded; and no clear call precedes it. -/
theorem C6_handle_valid (d : Driver) (fuel : Nat)
    (hcontract : d.DAQmxFailed d.DAQmxCreateTask.1 = true ↔ d.DAQmxCreateTask.2 = nullptr)
    (pre post : List DriverCall) (c : DriverCall) (h : TaskHandle)
    (hsplit : calls (main d fuel).trace = pre ++ c :: post) (hh : c.handle? = some h) :
    h = d.DAQmxCreateTask.2 ∧ h ≠ nullptr ∧ d.DAQmxFailed d.DAQmxCreateTask.1 = false ∧
      pre.head? = some (.CreateTask "ai_task") ∧ ∀ x ∈ pre, x.isClear = false := by
  obtain ⟨m, tail, hc, ht, _, hprev⟩ := calls_shape d fuel
  have hcmem : c ∈ calls (main d fuel).trace := by rw [hsplit]; simp
  have hnn : d.DAQmxFailed d.DAQmxCreateTask.1 = false → d.DAQmxCreateTask.2 ≠ nullptr :=
    fun hok hn => by rw [hcontract.mpr hn] at hok; exact Bool.noConfusion hok
  have hsucc : d.DAQmxCreateTask.2 ≠ nullptr → d.DAQmxFailed d.DAQmxCreateTask.1 = false := by
    intro hn
    cases hf : d.DAQmxFailed d.DAQmxCreateTask.1
    · rfl
    · exact absurd (hcontract.mp hf) hn
  have key : h = d.DAQmxCreateTask.2 ∧ d.DAQmxFailed d.DAQmxCreateTask.1 = false := by
    rw [hc] at hcmem
    rcases List.mem_append.mp hcmem with h1 | h1
    · obtain ⟨j, hj, rfl⟩ := List.mem_map.mp h1
      have hjm : j < m + 1 := List.mem_range.mp hj
      match j, hh, hjm with
      | 0, hh, _ => simp [checkedCall, DriverCall.handle?] at hh
      | 1, hh, hjm =>
        simp [checkedCall, DriverCall.handle?, Driver.handle] at hh
        exact ⟨hh.symm, hprev 0 (by omega)⟩
      | 2, hh, hjm =>
        simp [checkedCall, DriverCall.handle?, Driver.handle] at hh
        exact ⟨hh.symm, hprev 0 (by omega)⟩
      | 3, hh, hjm =>
        simp [checkedCall, DriverCall.handle?, Driver.handle] at hh
        exact ⟨hh.symm, hprev 0 (by omega)⟩
      | i + 4, hh, hjm =>
        simp [checkedCall, readCall, DriverCall.handle?, Driver.handle] at hh
        exact ⟨hh.symm, hprev 0 (by omega)⟩
    · rcases ht with rfl | rfl
      · simp at h1
      · by_cases hnull : d.handle = nullptr
        · simp [cleanupCalls, hnull] at h1
          subst h1
          simp [DriverCall.handle?] at hh
        · have hnull2 : d.DAQmxCreateTask.2 ≠ nullptr := hnull
          simp [cleanupCalls, hnull] at h1
          rcases h1 with rfl | rfl | rfl
          · simp [DriverCall.handle?] at hh
          · simp [DriverCall.handle?, Driver.handle] at hh
            exact ⟨hh.symm, hsucc hnull2⟩
          · simp [DriverCall.handle?, Driver.handle] at hh
            exact ⟨hh.symm, hsucc hnull2⟩
  refine ⟨key.1, ?_, key.2, ?_, ?_⟩
  · rw [key.1]; exact hnn key.2
  · cases pre with
    | nil =>
      rw [hc] at hsplit
      simp [List.range_succ_eq_map, checkedCall] at hsplit
      rw [← hsplit.1] at hh
      simp [DriverCall.handle?] at hh
    | cons p pre =>
      rw [hc] at hsplit
      simp [List.range_succ_eq_map, checkedCall] at hsplit
      simp [hsplit.1]
  · rcases stop_clear_last d fuel with hnone | ⟨_, P, hP, hno⟩
    · intro x hx
      exact (hnone x (by rw [hsplit]; simp [hx])).2
    · intro x hx
      have hPa : pre ++ c :: post = (P ++ [.StopTask d.handle]) ++ [.ClearTask d.handle] := by
        rw [← hsplit, hP]; simp
      have := mem_of_split_snoc pre post _ c _ hPa x hx
      rcases List.mem_append.mp this with h1 | h1
      · exact (hno x h1).2
      · simp at h1; subst h1; rfl

/-- C6, amended, at the stop call of a run whose third read fails. -/
theorem C6_handle_valid_witness :
    (7 : TaskHandle) = thirdReadFails.DAQmxCreateTask.2 ∧ (7 : TaskHandle) ≠ nullptr ∧
      thirdReadFails.DAQmxFailed thirdReadFails.DAQmxCreateTask.1 = false ∧
      (List.head? ((calls (main thirdReadFails 3).trace).take 8))
        = some (.CreateTask "ai_task") ∧
      ∀ x ∈ (calls (main thirdReadFails 3).trace).take 8, x.isClear = false :=
  C6_handle_valid thirdReadFails 3 (by decide)
    ((calls (main thirdReadFails 3).trace).take 8) [.ClearTask 7] (.StopTask 7) 7
    (by decide) (by decide)

/-! ## C7: the loop ends only on a failing read -/

/-- The loop throws only when one of its reads fails. -/
theorem readLoop_thrown (d : Driver) (h : TaskHandle) (fuel : Nat) :
    ∀ (i : Nat) (buffer : List float64) (e : Exn),
      (readLoop d h fuel i buffer).2 = .thrown e →
      ∃ j, i ≤ j ∧ j < i + fuel ∧ d.DAQmxFailed (d.DAQmxReadAnalogF64 j).code = true := by
  induction fuel with
  | zero => intro i buffer e hthrown; simp [readLoop] at hthrown
  | succ fuel ih =>
    intro i buffer e hthrown
    cases hf : d.DAQmxFailed (d.DAQmxReadAnalogF64 i).code
    · simp only [readLoop] at hthrown
      rw [checked_ok d _ _ _ hf] at hthrown
      obtain ⟨j, h1, h2, h3⟩ := ih (i + 1) _ e hthrown
      exact ⟨j, by omega, by omega, h3⟩
    · exact ⟨i, Nat.le_refl i, by omega, hf⟩

/-- C7: once the setup has succeeded, the loop goes on for as long as the reads
succeed.  If the first `n` reads succeed, the program issues an `(n+1)`-th read
and no stop or clear call before it, whatever the reads delivered; `main` leaves
the loop, and a stop or clear call occurs, only when some read has failed; if no
read fails the program is still in the loop at every bound; and the loop itself
throws only on a failing read. -/
theorem C7_loop_ends_only_on_read_failure (d : Driver) (fuel : Nat)
    (hs : ∀ j, j < 4 → d.DAQmxFailed (checkedCode d j) = false) :
    (∀ n, n < fuel → (∀ i, i < n → d.DAQmxFailed (d.DAQmxReadAnalogF64 i).code = false) →
      (calls (main d fuel).trace).take (4 + (n + 1)) =
        [checkedCall d 0, checkedCall d 1, checkedCall d 2, checkedCall d 3]
        ++ List.replicate (n + 1)
          (.ReadAnalogF64 d.handle 100 timeoutSec .GroupByScanNumber 100) ∧
      ∀ c ∈ (calls (main d fuel).trace).take (4 + (n + 1)),
        c.isStop = false ∧ c.isClear = false) ∧
    ((main d fuel).exit ≠ .running →
      ∃ i, i < fuel ∧ d.DAQmxFailed (d.DAQmxReadAnalogF64 i).code = true) ∧
    ((∃ c ∈ calls (main d fuel).trace, c.isStop = true ∨ c.isClear = true) →
      ∃ i, i < fuel ∧ d.DAQmxFailed (d.DAQmxReadAnalogF64 i).code = true) ∧
    ((∀ i, i < fuel → d.DAQmxFailed (d.DAQmxReadAnalogF64 i).code = false) →
      (main d fuel).exit = .running) ∧
    (∀ (h : TaskHandle) (i : Nat) (buffer : List float64) (e : Exn),
      (readLoop d h fuel i buffer).2 = .thrown e →
      ∃ j, i ≤ j ∧ j < i + fuel ∧ d.DAQmxFailed (d.DAQmxReadAnalogF64 j).code = true) := by
  have hfail : (∃ k, k ≤ fuel + 3 ∧ FirstFailure d k) →
      ∃ i, i < fuel ∧ d.DAQmxFailed (d.DAQmxReadAnalogF64 i).code = true := by
    rintro ⟨k, hk, hff⟩
    have h4 : 4 ≤ k := by
      by_contra hlt
      have := hs k (by omega)
      rw [hff.1] at this
      exact Bool.noConfusion this
    obtain ⟨i, rfl⟩ : ∃ i, k = i + 4 := ⟨k - 4, by omega⟩
    exact ⟨i, by omega, hff.1⟩
  refine ⟨?_, ?_, ?_, ?_, fun h i buffer e => readLoop_thrown d h fuel i buffer e⟩
  · intro n hn hok
    have hall : ∀ j, j < n + 4 → d.DAQmxFailed (checkedCode d j) = false := by
      intro j hj
      by_cases h4 : j < 4
      · exact hs j h4
      · obtain ⟨i, rfl⟩ : ∃ i, j = i + 4 := ⟨j - 4, by omega⟩
        exact hok i (by omega)
    obtain ⟨rest, hr⟩ := calls_next d (n + 4) fuel hall (by omega)
    rw [show n + 4 + 1 = (n + 1) + 4 by omega, map_checkedCall] at hr
    have ht : (calls (main d fuel).trace).take (4 + (n + 1)) =
        [checkedCall d 0, checkedCall d 1, checkedCall d 2, checkedCall d 3]
        ++ List.replicate (n + 1) (fixedRead d.handle) := by
      rw [hr, List.take_append_of_le_length (by simp; omega),
        List.take_of_length_le (by simp; omega)]
    refine ⟨by rw [ht]; rfl, ?_⟩
    rw [ht]
    intro c hc
    rcases List.mem_append.mp hc with h1 | h1
    · simp at h1
      rcases h1 with rfl | rfl | rfl | rfl
      · exact ⟨(checkedCall_flags d 0).1, (checkedCall_flags d 0).2.1⟩
      · exact ⟨(checkedCall_flags d 1).1, (checkedCall_flags d 1).2.1⟩
      · exact ⟨(checkedCall_flags d 2).1, (checkedCall_flags d 2).2.1⟩
      · exact ⟨(checkedCall_flags d 3).1, (checkedCall_flags d 3).2.1⟩
    · rw [List.eq_of_mem_replicate h1]
      exact ⟨rfl, rfl⟩
  · intro hexit
    rcases first_failure_or_none d fuel with hk | hnone
    · exact hfail hk
    · rw [main_no_failure d fuel hnone] at hexit
      exact absurd rfl hexit
  · rintro ⟨c, hc, hsc⟩
    rcases first_failure_or_none d fuel with hk | hnone
    · exact hfail hk
    · rw [calls_no_failure d fuel hnone] at hc
      obtain ⟨j, _, rfl⟩ := List.mem_map.mp hc
      have hfl := checkedCall_flags d j
      rcases hsc with h | h
      · rw [hfl.1] at h; exact Bool.noConfusion h
      · rw [hfl.2.1] at h; exact Bool.noConfusion h
  · intro hok
    rw [main_no_failure d fuel (fun j hj => by
      by_cases h4 : j < 4
      · exact hs j h4
      · obtain ⟨i, rfl⟩ : ∃ i, j = i + 4 := ⟨j - 4, by omega⟩
        exact hok i (by omega))]

/-- C7 at a driver that never fails, after five iterations: the sixth read of
the run is there, and the program is still in the loop. -/
theorem C7_loop_witness :
    ((calls (main neverFails 6).trace).take (4 + (5 + 1)) =
        [checkedCall neverFails 0, checkedCall neverFails 1, checkedCall neverFails 2,
          checkedCall neverFails 3]
        ++ List.replicate (5 + 1)
          (.ReadAnalogF64 neverFails.handle 100 timeoutSec .GroupByScanNumber 100) ∧
      ∀ c ∈ (calls (main neverFails 6).trace).take (4 + (5 + 1)),
        c.isStop = false ∧ c.isClear = false) ∧
    (main neverFails 6).exit = .running :=
  ⟨(C7_loop_ends_only_on_read_failure neverFails 6 (by decide)).1 5 (by decide)
      (fun _ _ => rfl),
   (C7_loop_ends_only_on_read_failure neverFails 6 (by decide)).2.2.2.1 (fun _ _ => rfl)⟩

/-! ## C8: every read asks for the same block -/

/-- C8: every read call of every run has the task handle, 100 samples per
channel, the 10-second timeout and an array size of 100, which is the length of
the buffer allocated before the loop and of the buffer at every iteration (a
read does not change the length), so the samples requested never exceed the
capacity passed; the arguments are the same whatever earlier reads returned. -/
theorem C8_fixed_read_block (d : Driver) (fuel : Nat) :
    (∀ c ∈ calls (main d fuel).trace, c.isRead = true →
      c = .ReadAnalogF64 d.handle 100 timeoutSec .GroupByScanNumber 100) ∧
    samplesPerRead = 100 ∧
    timeoutSec.toRat? = some 10 ∧
    initialBuffer.length = 100 ∧
    (∀ (r : ReadResult) (buffer : List float64), (r.store buffer).length = buffer.length) ∧
    (∀ i, (bufferAt d i).length = initialBuffer.length ∧
      samplesPerRead ≤ ((bufferAt d i).length : Int) ∧
      readCall d.handle (bufferAt d i)
        = .ReadAnalogF64 d.handle 100 timeoutSec .GroupByScanNumber initialBuffer.length) := by
  have hinit : initialBuffer.length = 100 := by simp [initialBuffer, samplesPerRead]
  refine ⟨?_, rfl, by norm_num [float64.toRat?, timeoutSec], hinit, store_length, ?_⟩
  · intro c hc hread
    obtain ⟨m, tail, hsh, ht, _, _⟩ := calls_shape d fuel
    rw [hsh] at hc
    rcases List.mem_append.mp hc with h1 | h1
    · obtain ⟨j, _, rfl⟩ := List.mem_map.mp h1
      match j, hread with
      | 0, hread => simp [checkedCall, DriverCall.isRead] at hread
      | 1, hread => simp [checkedCall, DriverCall.isRead] at hread
      | 2, hread => simp [checkedCall, DriverCall.isRead] at hread
      | 3, hread => simp [checkedCall, DriverCall.isRead] at hread
      | i + 4, _ => exact checkedCall_read d i
    · rcases ht with rfl | rfl
      · simp at h1
      · by_cases hh : d.handle = nullptr
        · simp [cleanupCalls, hh] at h1
          subst h1
          simp [DriverCall.isRead] at hread
        · simp [cleanupCalls, hh] at h1
          rcases h1 with rfl | rfl | rfl <;> simp [DriverCall.isRead] at hread
  · intro i
    refine ⟨by rw [bufferAt_length, hinit], by simp [bufferAt_length, samplesPerRead], ?_⟩
    rw [readCall_bufferAt, hinit]
    rfl

/-- C8 at the second read of a run whose third read fails. -/
theorem C8_fixed_read_witness :
    (calls (main thirdReadFails 3).trace).get ⟨5, by decide⟩
      = .ReadAnalogF64 thirdReadFails.handle 100 timeoutSec .GroupByScanNumber 100 :=
  (C8_fixed_read_block thirdReadFails 3).1 _ (List.get_mem _ 5 (by decide)) (by decide)

/-! ## C9: what a successful read reports -/

/-- When the first `m` checked calls succeed and the bound allows it, the run
starts with their events. -/
theorem trace_okEvents (d : Driver) (m fuel : Nat)
    (hok : ∀ j, j < m → d.DAQmxFailed (checkedCode d j) = false) (hm : m ≤ fuel + 4) :
    ∃ rest, (main d fuel).trace = okEvents d m ++ rest := by
  by_cases h3 : m ≤ fuel + 3
  · obtain ⟨rest, hr⟩ := trace_next d m fuel hok h3
    exact ⟨_, hr⟩
  · obtain rfl : m = fuel + 4 := by omega
    exact ⟨[], by rw [main_no_failure d fuel hok]; simp⟩

/-- C9: when the setup and the reads up to the `n`-th succeed, the `n`-th read
call is followed on stdout by exactly the line "Read r samples. First sample =
buffer[0] V" when the read left `r > 0` in `samplesRead`, and by nothing when
`r ≤ 0`; the sample printed is element 0 of the buffer as the read left it; and
in both cases the next event is the next read call. -/
theorem C9_read_report (d : Driver) (n fuel : Nat)
    (hok : ∀ j, j < n + 5 → d.DAQmxFailed (checkedCode d j) = false) (hfuel : n < fuel) :
    ∃ rest, (main d fuel).trace = okEvents d (n + 4) ++
        .call (.ReadAnalogF64 d.handle 100 timeoutSec .GroupByScanNumber 100) ::
        (if (d.DAQmxReadAnalogF64 n).samplesRead > 0 then
          [ .stdout [ .str "Read ", .int (d.DAQmxReadAnalogF64 n).samplesRead,
              .str " samples. First sample = ",
              .flt (((d.DAQmxReadAnalogF64 n).store (bufferAt d n)).getD 0 ⟨0⟩),
              .str " V\n"] ]
         else []) ++ rest ∧
      (n + 1 < fuel → ∃ rest1,
        rest = .call (.ReadAnalogF64 d.handle 100 timeoutSec .GroupByScanNumber 100)
          :: rest1) := by
  have hexp : okEvents d (n + 5) = okEvents d (n + 4) ++
      .call (.ReadAnalogF64 d.handle 100 timeoutSec .GroupByScanNumber 100) ::
        (if (d.DAQmxReadAnalogF64 n).samplesRead > 0 then
          [ .stdout [ .str "Read ", .int (d.DAQmxReadAnalogF64 n).samplesRead,
              .str " samples. First sample = ",
              .flt (((d.DAQmxReadAnalogF64 n).store (bufferAt d n)).getD 0 ⟨0⟩),
              .str " V\n"] ]
         else []) := by
    rw [show n + 5 = (n + 4) + 1 by omega, okEvents, checkedCall_read]
    rfl
  by_cases hlast : n + 1 < fuel
  · obtain ⟨rest1, hr⟩ := trace_next d (n + 5) fuel hok (by omega)
    refine ⟨.call (.ReadAnalogF64 d.handle 100 timeoutSec .GroupByScanNumber 100) :: rest1,
      ?_, fun _ => ⟨rest1, rfl⟩⟩
    rw [hr, hexp, show n + 5 = (n + 1) + 4 by omega, checkedCall_read]
    simp [fixedRead]
  · obtain ⟨rest, hr⟩ := trace_okEvents d (n + 5) fuel hok (by omega)
    refine ⟨rest, ?_, fun h => absurd h hlast⟩
    rw [hr, hexp]

/-- C9 at the first read (100 samples, reported) of a run whose third read
fails. -/
theorem C9_read_report_witness :
    ∃ rest, (main thirdReadFails 3).trace = okEvents thirdReadFails (0 + 4) ++
        .call (.ReadAnalogF64 thirdReadFails.handle 100 timeoutSec .GroupByScanNumber 100) ::
        (if (thirdReadFails.DAQmxReadAnalogF64 0).samplesRead > 0 then
          [ .stdout [ .str "Read ", .int (thirdReadFails.DAQmxReadAnalogF64 0).samplesRead,
              .str " samples. First sample = ",
              .flt (((thirdReadFails.DAQmxReadAnalogF64 0).store
                (bufferAt thirdReadFails 0)).getD 0 ⟨0⟩),
              .str " V\n"] ]
         else []) ++ rest ∧
      (0 + 1 < 3 → ∃ rest1,
        rest = .call (.ReadAnalogF64 thirdReadFails.handle 100 timeoutSec
          .GroupByScanNumber 100) :: rest1) :=
  C9_read_report thirdReadFails 0 3 (by decide) (by decide)

/-! ## C10: the exit status -/

/-- C10: whenever `main` ends it returns 0: a run is either still in the loop or
has returned 0, no exception leaves `main`, a failing checked call within reach
makes `main` return 0, a run without failing call is still in the loop, and the
return codes of the stop and clear calls change nothing. -/
theorem C10_exit_status (d : Driver) (fuel : Nat) :
    ((main d fuel).exit = .running ∨ (main d fuel).exit = .returned 0) ∧
    (∀ e : Exn, (main d fuel).exit ≠ .uncaught e) ∧
    (∀ k, k ≤ fuel + 3 → d.DAQmxFailed (checkedCode d k) = true →
      (main d fuel).exit = .returned 0) ∧
    ((∀ j, j < fuel + 4 → d.DAQmxFailed (checkedCode d j) = false) →
      (main d fuel).exit = .running) ∧
    (∀ a b : Int,
      main { d with DAQmxStopTask := a, DAQmxClearTask := b } fuel = main d fuel) := by
  have hcases : (main d fuel).exit = .running ∨ (main d fuel).exit = .returned 0 := by
    rcases first_failure_or_none d fuel with ⟨k, hk, hff⟩ | hnone
    · right; rw [main_first_failure d k fuel hff hk]
    · left; rw [main_no_failure d fuel hnone]
  refine ⟨hcases, ?_, ?_, ?_, fun a b => main_ignores_cleanup_codes d a b fuel⟩
  · intro e he
    rcases hcases with h | h <;> rw [h] at he <;> exact Exit.noConfusion he
  · intro k hk hf
    obtain ⟨k0, hk0, hff⟩ := exists_first_failure d k hf
    rw [main_first_failure d k0 fuel hff (by omega)]
  · intro hnone
    rw [main_no_failure d fuel hnone]

/-- C10 at a driver whose third read, stop and clear all fail: `main` returns
0. -/
theorem C10_exit_status_witness : (main thirdReadFails 3).exit = .returned 0 :=
  (C10_exit_status thirdReadFails 3).2.2.1 6 (by decide) (by decide)

end NIDAQ
